import Mathlib

/-!
Verification development for the distributed dense-matrix core
(ScaLAPACKMatrix, source/lac/scalapack.cc).

The C++ class is shallowly embedded: a distributed matrix is modelled by its
global content (a function from a row and a column index to an entry) together
with the metadata the class carries (shape, block sizes, owning process grid,
state, property, and the stored-triangle flag uplo).  Collective ScaLAPACK
kernels (pgemr2d, pgeadd, ppotrf, psyev/psyevx) are external library calls; they
are modelled by their documented global-content semantics, or, where only the
control flow around them matters, by explicit parameters standing for the
kernel's outputs (status code, eigenvalue list, eigenvector content).
Assertion failures (Assert / AssertThrow) are modelled with Except.
-/

namespace DealIIScaLAPACK

/-- LAPACKSupport::State: which derived form the matrix buffer currently
holds.  The constructor initialises a matrix to the plain state, called
LAPACKSupport::matrix in the source. -/
inductive MState where
  | matrix
  | inverse_matrix
  | cholesky
  | lu
  | eigenvalues
  | svd
  | inverse_svd
  | unusable
deriving DecidableEq, Repr

/-- LAPACKSupport::Property of a matrix. -/
inductive MProperty where
  | general
  | symmetric
  | lower_triangular
  | upper_triangular
  | diagonal
  | hessenberg
deriving DecidableEq, Repr

/-- Utilities::MPI::ProcessGrid as far as the matrix operations consult it:
the communicator it wraps (identified by a number, so that the source's
MPI_Comm_compare test becomes an equality test) and the grid dimensions. -/
structure ProcessGrid where
  comm : Nat
  n_process_rows : Nat
  n_process_columns : Nat
deriving DecidableEq, Repr

/-- ScaLAPACKMatrix, viewed through its global content.  The field data i j is
the entry of the global matrix at row i and column j (entries are modelled over
Int: every operation verified here moves or combines entries exactly, it never
rounds).  uplo_is_lower records the constructor's uplo = 'L' choice. -/
structure ScaMat where
  n_rows : Nat
  n_columns : Nat
  row_block_size : Nat
  column_block_size : Nat
  grid : ProcessGrid
  data : Nat → Nat → Int
  state : MState
  property : MProperty
  uplo_is_lower : Bool := true

/-! ## Block-cyclic layout

Modelled from the spec: the layout mapping functions themselves (numroc_,
indxl2g_, indxg2p_, indxg2l_) are supplied by the external ScaLAPACK TOOLS
library and their bodies are not part of this repository; global_row and
global_column in the source merely wrap indxl2g_.  The definitions below follow
the spec's description of the layout: global indices are grouped into blocks of
block_size elements, the blocks are dealt cyclically to the grid coordinates
starting at first_process_coord, and each coordinate concatenates the blocks it
received into its local buffer.  All indices and coordinates are 0-based. -/

/-- Modelled from the spec: grid coordinate owning global index g when blocks
of size b are dealt cyclically over p coordinates starting at coordinate
first. -/
def owner_coord (g b p first : Nat) : Nat :=
  (first + g / b) % p

/-- Modelled from the spec: position of global index g inside the local buffer
of its owning coordinate; block number g / b lands locally at block
g / b / p = g / (b * p), and g keeps its offset g % b inside the block. -/
def local_index (g b p : Nat) : Nat :=
  (g / (b * p)) * b + g % b

/-- Modelled from the spec: inverse mapping (what indxl2g_ computes, shifted to
0-based indices): global index of local index l on grid coordinate c, for block
size b, p coordinates and first process coordinate first. -/
def local_to_global (l b p c first : Nat) : Nat :=
  ((l / b) * p + (p + c - first) % p) * b + l % b

/-- Cancellation step for the cyclic dealing: recovering the block coordinate
offset from the owning coordinate. -/
theorem coord_cancel (t p first : Nat) (hf : first < p) :
    (p + (first + t) % p - first) % p = t % p := by
  have h1 : p + (first + t) % p - first = (first + t) % p + (p - first) := by omega
  rw [h1, Nat.mod_add_mod]
  have h2 : first + t + (p - first) = t + p := by omega
  rw [h2, Nat.add_mod_right]

/-- C2: for every global index g, block size b >= 1, grid dimension p >= 1 and
first-process coordinate below p, sending g to its owning coordinate and local
index with the block-cyclic layout and mapping the local index back with the
inverse mapping for that coordinate returns g; degenerate cases (1x1 grid,
block size equal to the dimension) are instances of the quantifiers. -/
theorem layout_roundtrip (g b p first : Nat)
    (hb : 1 ≤ b) (hp : 1 ≤ p) (hf : first < p) :
    local_to_global (local_index g b p) b p (owner_coord g b p first) first = g := by
  unfold local_to_global local_index owner_coord
  have hb0 : 0 < b := hb
  have hr : g % b < b := Nat.mod_lt _ hb0
  have hdiv : ((g / (b * p)) * b + g % b) / b = g / (b * p) := by
    rw [Nat.add_comm, Nat.add_mul_div_right _ _ hb0, Nat.div_eq_of_lt hr, Nat.zero_add]
  have hmod : ((g / (b * p)) * b + g % b) % b = g % b := by
    rw [Nat.add_comm, Nat.add_mul_mod_self_right, Nat.mod_mod_of_dvd _ dvd_rfl]
  rw [hdiv, hmod, ← Nat.div_div_eq_div_mul, coord_cancel (g / b) p first hf]
  have h1 : g / b / p * p + g / b % p = g / b := by
    rw [Nat.mul_comm]
    exact Nat.div_add_mod _ _
  rw [h1, Nat.mul_comm]
  exact Nat.div_add_mod g b

/-- Witness for layout_roundtrip at g = 7, b = 2, p = 3, first = 1. -/
theorem layout_roundtrip_witness :
    1 ≤ 2 ∧ 1 ≤ 3 ∧ 1 < 3 ∧
      local_to_global (local_index 7 2 3) 2 3 (owner_coord 7 2 3 1) 1 = 7 :=
  ⟨by decide, by decide, by decide,
    layout_roundtrip 7 2 3 1 (by decide) (by decide) (by decide)⟩

/-! ## Checkpoint column distribution (save_parallel / load_parallel)

save_parallel and load_parallel redistribute the matrix onto a 1 x P column
grid with row block size MB = n_rows and column block size
NB = std::ceil(n_columns/n_mpi_processes).  In the source, n_columns is an int
and n_mpi_processes an unsigned int, so n_columns/n_mpi_processes is integer
division and std::ceil of its value is the value itself: NB is the floor of
n_columns / P, not the ceiling. -/

/-- Column block size actually computed by save_parallel and load_parallel:
floor of n_columns / P (the std::ceil in the source is applied to an already
truncated integer quotient). -/
def checkpoint_column_block (n_columns P : Nat) : Nat :=
  n_columns / P

/-- Grid column coordinate that owns global column g after the redistribution
onto the 1 x P grid of save_parallel / load_parallel (first process column is
0, so this is the block-cyclic dealing with block checkpoint_column_block). -/
def checkpoint_column_owner (n_columns P g : Nat) : Nat :=
  owner_coord g (checkpoint_column_block n_columns P) P 0

/-- Process r holds one contiguous band of columns of an n-column matrix under
the save_parallel / load_parallel distribution over P processes. -/
def holds_contiguous_band (n P r : Nat) : Prop :=
  ∀ g1 g2 g3, g1 < n → g3 < n →
    checkpoint_column_owner n P g1 = r → checkpoint_column_owner n P g3 = r →
    g1 ≤ g2 → g2 ≤ g3 → checkpoint_column_owner n P g2 = r

/-- C5 (code bug): for a matrix with 5 columns over 2 processes the computed
block size is floor(5/2) = 2, so process 0 receives columns 0, 1 and 4 while
process 1 receives columns 2 and 3; process 0's columns are not one contiguous
band, contradicting the function's own comment that the processes hold
contiguous chunks they write as hyperslabs. -/
theorem save_parallel_band_not_contiguous :
    checkpoint_column_owner 5 2 0 = 0 ∧
    checkpoint_column_owner 5 2 1 = 0 ∧
    checkpoint_column_owner 5 2 2 = 1 ∧
    checkpoint_column_owner 5 2 3 = 1 ∧
    checkpoint_column_owner 5 2 4 = 0 ∧
    ¬ holds_contiguous_band 5 2 0 := by
  refine ⟨by decide, by decide, by decide, by decide, by decide, ?_⟩
  intro h
  have h2 := h 1 2 4 (by decide) (by decide) (by decide) (by decide)
    (by decide) (by decide)
  exact absurd h2 (by decide)

/-! ## Copy operations -/

/-- Global-content semantics of the pgemr2d redistribution kernel applied to
the whole matrix (the path taken by ScaLAPACKMatrix::copy_to(dest)): every
entry of the n_rows x n_columns global matrix is copied from source to
destination, entries outside that range are untouched.  The direct local-copy
branch for identical grids and block sizes realises the same global content. -/
def pgemr2d_whole (nr nc : Nat) (src dest : Nat → Nat → Int) : Nat → Nat → Int :=
  fun i j => if i < nr ∧ j < nc then src i j else dest i j

/-- ScaLAPACKMatrix::copy_to(ScaLAPACKMatrix &dest), source lines 379-467:
asserts matching global shapes, copies the content (directly or through a
union-context redistribution) and finally assigns dest.state = state and
dest.property = property. -/
def copy_to_whole (src dest : ScaMat) : Except String ScaMat :=
  if src.n_rows = dest.n_rows then
    if src.n_columns = dest.n_columns then
      Except.ok { dest with
        data := pgemr2d_whole src.n_rows src.n_columns src.data dest.data,
        state := src.state,
        property := src.property }
    else Except.error "ExcDimensionMismatch n_columns"
  else Except.error "ExcDimensionMismatch n_rows"

/-- ScaLAPACKMatrix::copy_to(B, offset_A, offset_B, submatrix_size), source
lines 271-375: returns immediately when a submatrix dimension is 0; otherwise
range-checks both offsets, requires a common MPI communicator, copies the
rectangular block through pgemr2d and sets B.state = LAPACKSupport::matrix. -/
def copy_to_submatrix (A B : ScaMat) (offset_A offset_B : Nat × Nat)
    (submatrix_size : Nat × Nat) : Except String ScaMat :=
  if submatrix_size.1 = 0 ∨ submatrix_size.2 = 0 then
    Except.ok B
  else
    if offset_A.1 + submatrix_size.1 ≤ A.n_rows ∧
       offset_A.2 + submatrix_size.2 ≤ A.n_columns ∧
       offset_B.1 + submatrix_size.1 ≤ B.n_rows ∧
       offset_B.2 + submatrix_size.2 ≤ B.n_columns then
      if A.grid.comm = B.grid.comm then
        Except.ok { B with
          data := fun i j =>
            if offset_B.1 ≤ i ∧ i < offset_B.1 + submatrix_size.1 ∧
               offset_B.2 ≤ j ∧ j < offset_B.2 + submatrix_size.2 then
              A.data (offset_A.1 + (i - offset_B.1)) (offset_A.2 + (j - offset_B.2))
            else B.data i j,
          state := MState.matrix }
      else Except.error "Matrix A and B must have a common MPI Communicator"
    else Except.error "ExcIndexRange"

/-- C9: the sub-block copy with an empty submatrix size returns before any
range check, leaving B (buffer, state and property alike) exactly as it was,
for arbitrary, even out-of-range, offsets. -/
theorem copy_to_submatrix_empty (A B : ScaMat) (offset_A offset_B : Nat × Nat)
    (submatrix_size : Nat × Nat)
    (h : submatrix_size.1 = 0 ∨ submatrix_size.2 = 0) :
    copy_to_submatrix A B offset_A offset_B submatrix_size = Except.ok B := by
  unfold copy_to_submatrix
  exact if_pos h

/-- Sample matrices used by concrete witnesses below. -/
def sampleGrid : ProcessGrid := { comm := 0, n_process_rows := 2, n_process_columns := 2 }

def sampleA : ScaMat :=
  { n_rows := 2, n_columns := 2, row_block_size := 1, column_block_size := 1,
    grid := sampleGrid, data := fun i j => (i : Int) * 2 + (j : Int),
    state := MState.cholesky, property := MProperty.lower_triangular }

def sampleB : ScaMat :=
  { n_rows := 2, n_columns := 2, row_block_size := 2, column_block_size := 2,
    grid := sampleGrid, data := fun _ _ => 7,
    state := MState.unusable, property := MProperty.diagonal }

/-- Witness for copy_to_submatrix_empty: a zero-width submatrix together with
offsets far outside both matrices is copied without error and without change
to B. -/
theorem copy_to_submatrix_empty_witness :
    ((0 : Nat) = 0 ∨ (5 : Nat) = 0) ∧
      copy_to_submatrix sampleA sampleB (100, 200) (300, 400) (0, 5) =
        Except.ok sampleB :=
  ⟨Or.inl rfl,
    copy_to_submatrix_empty sampleA sampleB (100, 200) (300, 400) (0, 5) (Or.inl rfl)⟩

/-- C8: the whole-matrix copy_to transfers the state and the property of the
source to the destination for every source state and property, while the
rectangular sub-block variant, whenever it actually copies (both submatrix
dimensions non-zero), sets the destination state to plain. -/
theorem copy_to_whole_metadata (src dest : ScaMat)
    (h1 : src.n_rows = dest.n_rows) (h2 : src.n_columns = dest.n_columns) :
    (∃ d, copy_to_whole src dest = Except.ok d ∧
      d.state = src.state ∧ d.property = src.property) ∧
    (∀ A B offset_A offset_B submatrix_size R,
      submatrix_size.1 ≠ 0 → submatrix_size.2 ≠ 0 →
      copy_to_submatrix A B offset_A offset_B submatrix_size = Except.ok R →
      R.state = MState.matrix) := by
  constructor
  · unfold copy_to_whole
    rw [if_pos h1, if_pos h2]
    exact ⟨_, rfl, rfl, rfl⟩
  · intro A B oA oB sz R hsz1 hsz2 hok
    unfold copy_to_submatrix at hok
    rw [if_neg (by simp [hsz1, hsz2])] at hok
    by_cases hrange : oA.1 + sz.1 ≤ A.n_rows ∧ oA.2 + sz.2 ≤ A.n_columns ∧
        oB.1 + sz.1 ≤ B.n_rows ∧ oB.2 + sz.2 ≤ B.n_columns
    · rw [if_pos hrange] at hok
      by_cases hcomm : A.grid.comm = B.grid.comm
      · rw [if_pos hcomm] at hok
        cases hok
        rfl
      · rw [if_neg hcomm] at hok
        cases hok
    · rw [if_neg hrange] at hok
      cases hok

/-- Witness for copy_to_whole_metadata at the concrete matrices sampleA and
sampleB (same 2 x 2 shape, different grids of block sizes, cholesky state and
lower_triangular property on the source). -/
theorem copy_to_whole_metadata_witness :
    sampleA.n_rows = sampleB.n_rows ∧ sampleA.n_columns = sampleB.n_columns ∧
    ((∃ d, copy_to_whole sampleA sampleB = Except.ok d ∧
        d.state = sampleA.state ∧ d.property = sampleA.property) ∧
      (∀ A B offset_A offset_B submatrix_size R,
        submatrix_size.1 ≠ 0 → submatrix_size.2 ≠ 0 →
        copy_to_submatrix A B offset_A offset_B submatrix_size = Except.ok R →
        R.state = MState.matrix)) :=
  ⟨rfl, rfl, copy_to_whole_metadata sampleA sampleB rfl rfl⟩

/-! ## add (pgeadd) -/

/-- Global-content semantics of the pgeadd kernel as invoked by
ScaLAPACKMatrix::add: inside the n_rows x n_columns range the destination entry
becomes alpha times itself plus beta times the (optionally transposed) source
entry; outside it is untouched. -/
def pgeadd_content (transpose_B : Bool) (nr nc : Nat) (alpha beta : Int)
    (Bdata Adata : Nat → Nat → Int) : Nat → Nat → Int :=
  fun i j =>
    if i < nr ∧ j < nc then
      alpha * Adata i j + beta * (if transpose_B then Bdata j i else Bdata i j)
    else Adata i j

/-- ScaLAPACKMatrix::add(B, alpha, beta, transpose_B), source lines 479-512:
asserts shape and block-size compatibility chosen by the transpose flag and a
common process grid, updates the content through pgeadd and sets the state to
plain. -/
def add (A B : ScaMat) (alpha beta : Int) (transpose_B : Bool) :
    Except String ScaMat :=
  if transpose_B then
    if A.n_rows = B.n_columns ∧ A.n_columns = B.n_rows ∧
       A.column_block_size = B.row_block_size ∧
       A.row_block_size = B.column_block_size then
      if A.grid = B.grid then
        Except.ok { A with
          data := pgeadd_content true A.n_rows A.n_columns alpha beta B.data A.data,
          state := MState.matrix }
      else Except.error "The matrices A and B need to have the same process grid"
    else Except.error "ExcDimensionMismatch"
  else
    if A.n_rows = B.n_rows ∧ A.n_columns = B.n_columns ∧
       A.column_block_size = B.column_block_size ∧
       A.row_block_size = B.row_block_size then
      if A.grid = B.grid then
        Except.ok { A with
          data := pgeadd_content false A.n_rows A.n_columns alpha beta B.data A.data,
          state := MState.matrix }
      else Except.error "The matrices A and B need to have the same process grid"
    else Except.error "ExcDimensionMismatch"

/-- C7: under the preconditions (same grid, shapes and block sizes compatible
for the given transpose flag) add succeeds, replaces every entry of A by
alpha * A(i,j) + beta * op(B)(i,j) in place, and sets A's state to plain. -/
theorem add_spec (A B : ScaMat) (alpha beta : Int) (transpose_B : Bool)
    (hgrid : A.grid = B.grid)
    (hdims : if transpose_B then
        A.n_rows = B.n_columns ∧ A.n_columns = B.n_rows ∧
        A.column_block_size = B.row_block_size ∧
        A.row_block_size = B.column_block_size
      else
        A.n_rows = B.n_rows ∧ A.n_columns = B.n_columns ∧
        A.column_block_size = B.column_block_size ∧
        A.row_block_size = B.row_block_size) :
    ∃ A', add A B alpha beta transpose_B = Except.ok A' ∧
      A'.state = MState.matrix ∧
      A'.n_rows = A.n_rows ∧ A'.n_columns = A.n_columns ∧
      ∀ i j, i < A.n_rows → j < A.n_columns →
        A'.data i j = alpha * A.data i j +
          beta * (if transpose_B then B.data j i else B.data i j) := by
  cases transpose_B with
  | false =>
    simp only [if_false, Bool.false_eq_true] at hdims ⊢
    unfold add
    rw [if_neg (by simp), if_pos hdims, if_pos hgrid]
    refine ⟨_, rfl, rfl, rfl, rfl, ?_⟩
    intro i j hi hj
    simp [pgeadd_content, hi, hj]
  | true =>
    simp only [if_true] at hdims ⊢
    unfold add
    rw [if_pos rfl, if_pos hdims, if_pos hgrid]
    refine ⟨_, rfl, rfl, rfl, rfl, ?_⟩
    intro i j hi hj
    simp [pgeadd_content, hi, hj]

/-- Witness for add_spec: sampleA plus twice the transpose of sampleA (the
transpose flag exercises the swapped compatibility checks). -/
theorem add_spec_witness :
    sampleA.grid = sampleA.grid ∧
      (∃ A', add sampleA sampleA 1 2 true = Except.ok A' ∧
        A'.state = MState.matrix ∧
        A'.n_rows = sampleA.n_rows ∧ A'.n_columns = sampleA.n_columns ∧
        ∀ i j, i < sampleA.n_rows → j < sampleA.n_columns →
          A'.data i j = 1 * sampleA.data i j +
            2 * (if true then sampleA.data j i else sampleA.data i j)) :=
  ⟨rfl, add_spec sampleA sampleA 1 2 true rfl (by exact ⟨rfl, rfl, rfl, rfl⟩)⟩

/-! ## Cholesky factorization -/

/-- ScaLAPACKMatrix::compute_cholesky_factorization, source lines 658-674:
asserts a square shape, calls the collective ppotrf kernel (modelled by its
reported status code and the factored content it leaves in the buffer), throws
on a non-zero status, and sets property to the stored triangular half selected
by uplo and state to cholesky.  The source performs no check of the current
state. -/
def compute_cholesky_factorization (M : ScaMat)
    (factored : Nat → Nat → Int) (status : Int) : Except String ScaMat :=
  if M.n_columns = M.n_rows then
    if status = 0 then
      Except.ok { M with
        data := factored,
        property := if M.uplo_is_lower then MProperty.lower_triangular
                    else MProperty.upper_triangular,
        state := MState.cholesky }
    else Except.error "ppotrf"
  else Except.error "Cholesky factorization can be applied to SPD matrices only."

/-- Square matrix that is not in the plain state, used to refute the claimed
state gating of the Cholesky factorization. -/
def choleskyGateMat : ScaMat :=
  { n_rows := 2, n_columns := 2, row_block_size := 1, column_block_size := 1,
    grid := sampleGrid, data := fun _ _ => 0,
    state := MState.unusable, property := MProperty.general }

/-- Decidable success test for results of the embedded operations. -/
def exceptIsOk (r : Except String ScaMat) : Bool :=
  match r with
  | Except.ok _ => true
  | Except.error _ => false

/-- C4 counterexample: compute_cholesky_factorization is not gated on the
plain state: called on a square matrix whose state is unusable, with a
successful kernel status, it succeeds instead of failing a precondition
check. -/
theorem cholesky_no_state_gate :
    choleskyGateMat.state ≠ MState.matrix ∧
      exceptIsOk (compute_cholesky_factorization choleskyGateMat (fun _ _ => 0) 0) = true := by
  constructor
  · decide
  · rfl

/-- C4 amended: compute_cholesky_factorization requires a square matrix and
fails on a non-zero kernel status; on success it sets property to the
triangular half actually stored (lower for the constructor's uplo = 'L') and
state to cholesky.  No state precondition is enforced: the function behaves
this way from every starting state. -/
theorem cholesky_amended (M : ScaMat) (factored : Nat → Nat → Int) (status : Int)
    (hsq : M.n_columns = M.n_rows) :
    (status = 0 → compute_cholesky_factorization M factored status =
      Except.ok { M with
        data := factored,
        property := if M.uplo_is_lower then MProperty.lower_triangular
                    else MProperty.upper_triangular,
        state := MState.cholesky }) ∧
    (status ≠ 0 → compute_cholesky_factorization M factored status =
      Except.error "ppotrf") := by
  constructor
  · intro h0
    unfold compute_cholesky_factorization
    rw [if_pos hsq, if_pos h0]
  · intro hne
    unfold compute_cholesky_factorization
    rw [if_pos hsq, if_neg hne]

/-- Witness for cholesky_amended on the square matrix choleskyGateMat with a
zero kernel status. -/
theorem cholesky_amended_witness :
    choleskyGateMat.n_columns = choleskyGateMat.n_rows ∧
      compute_cholesky_factorization choleskyGateMat (fun _ _ => 1) 0 =
        Except.ok { choleskyGateMat with
          data := fun _ _ => 1,
          property := if choleskyGateMat.uplo_is_lower then MProperty.lower_triangular
                      else MProperty.upper_triangular,
          state := MState.cholesky } :=
  ⟨rfl, (cholesky_amended choleskyGateMat (fun _ _ => 1) 0 rfl).1 rfl⟩

/-! ## copy_to into a fully replicated dense matrix -/

/-- Dense matrix obtained by the gather phase of
ScaLAPACKMatrix::copy_to(FullMatrix&): the destination is zeroed, every active
process writes its local share at the global coordinates, and the sum over the
communicator reconstructs every global entry exactly once. -/
def gathered (M : ScaMat) : Nat → Nat → Int :=
  fun i j => if i < M.n_rows ∧ j < M.n_columns then M.data i j else 0

/-- ScaLAPACKMatrix::copy_to(FullMatrix&), source lines 230-267: after the
gather, for property lower_triangular the loop over i < matrix.n() and
i+1 <= j < matrix.m() overwrites matrix(i,j) with matrix(j,i) when the state
is inverse_matrix and with 0 otherwise; for upper_triangular the loop over
i < matrix.n() and j < i does the same.  The reads matrix(j,i) land in the
untouched stored half, so the loop order does not matter and the result is the
functional update below. -/
def copy_to_full (M : ScaMat) : Nat → Nat → Int :=
  fun i j =>
    if M.property = MProperty.lower_triangular ∧ i < M.n_columns ∧
       i + 1 ≤ j ∧ j < M.n_rows then
      if M.state = MState.inverse_matrix then gathered M j i else 0
    else if M.property = MProperty.upper_triangular ∧ i < M.n_columns ∧ j < i then
      if M.state = MState.inverse_matrix then gathered M j i else 0
    else gathered M i j

/-- Lower-triangular 2 x 2 matrix in the plain state whose strict lower entry
is 5: the zero-fill path leaves the dense copy asymmetric. -/
def mirrorMat : ScaMat :=
  { n_rows := 2, n_columns := 2, row_block_size := 1, column_block_size := 1,
    grid := sampleGrid, data := fun i j => if i = 1 ∧ j = 0 then 5 else 0,
    state := MState.matrix, property := MProperty.lower_triangular }

/-- The same matrix in the inverse_matrix state, for the transpose-fill path. -/
def mirrorInvMat : ScaMat :=
  { mirrorMat with state := MState.inverse_matrix }

/-- C3 counterexample: for a lower_triangular matrix whose state is not
inverse_matrix the unstored half is filled with zero, not with the transpose,
so dense(0,1) = 0 while dense(1,0) = 5: the dense copy is not symmetric in the
non-inverted case, contrary to the claim. -/
theorem mirror_fill_claim_false :
    ¬ (∀ M : ScaMat, M.property = MProperty.lower_triangular →
        ∀ i j, copy_to_full M i j = copy_to_full M j i) := by
  intro h
  have h2 := h mirrorMat rfl 0 1
  have h3 : copy_to_full mirrorMat 0 1 ≠ copy_to_full mirrorMat 1 0 := by decide
  exact h3 h2

/-- C3 amended: for a square matrix with property lower_triangular, copy_to
into a dense matrix yields a symmetric result via the transpose-fill path when
the state is inverse_matrix; when the state is not inverse_matrix the unstored
strict upper half is filled with zero (so the result is symmetric only if the
stored strict lower half is itself zero). -/
theorem mirror_fill_amended (M : ScaMat)
    (hsq : M.n_rows = M.n_columns)
    (hp : M.property = MProperty.lower_triangular) :
    (M.state = MState.inverse_matrix →
      ∀ i j, copy_to_full M i j = copy_to_full M j i) ∧
    (M.state ≠ MState.inverse_matrix →
      ∀ i j, i < j → j < M.n_rows → copy_to_full M i j = 0) := by
  have hup : M.property ≠ MProperty.upper_triangular := by
    rw [hp]
    intro h
    cases h
  constructor
  · intro hs
    have key : ∀ i j, i < j → copy_to_full M i j = copy_to_full M j i := by
      intro i j hij
      unfold copy_to_full
      by_cases hj : j < M.n_rows
      · rw [if_pos ⟨hp, by omega, by omega, hj⟩,
          if_neg (by rintro ⟨-, -, h2, -⟩; omega :
            ¬(M.property = MProperty.lower_triangular ∧ j < M.n_columns ∧
              j + 1 ≤ i ∧ i < M.n_rows)),
          if_neg (by rintro ⟨h1, -⟩; exact hup h1 :
            ¬(M.property = MProperty.upper_triangular ∧ j < M.n_columns ∧ i < j)),
          if_pos hs]
      · rw [if_neg (by rintro ⟨-, -, -, h4⟩; exact hj h4 :
            ¬(M.property = MProperty.lower_triangular ∧ i < M.n_columns ∧
              i + 1 ≤ j ∧ j < M.n_rows)),
          if_neg (by rintro ⟨h1, -⟩; exact hup h1 :
            ¬(M.property = MProperty.upper_triangular ∧ i < M.n_columns ∧ j < i)),
          if_neg (by rintro ⟨-, -, h3, -⟩; omega :
            ¬(M.property = MProperty.lower_triangular ∧ j < M.n_columns ∧
              j + 1 ≤ i ∧ i < M.n_rows)),
          if_neg (by rintro ⟨h1, -⟩; exact hup h1 :
            ¬(M.property = MProperty.upper_triangular ∧ j < M.n_columns ∧ i < j))]
        unfold gathered
        rw [if_neg (by rintro ⟨-, h2⟩; omega : ¬(i < M.n_rows ∧ j < M.n_columns)),
          if_neg (by rintro ⟨h1, -⟩; exact hj h1 : ¬(j < M.n_rows ∧ i < M.n_columns))]
    intro i j
    rcases Nat.lt_trichotomy i j with h | h | h
    · exact key i j h
    · rw [h]
    · exact (key j i h).symm
  · intro hs i j hij hj
    unfold copy_to_full
    rw [if_pos ⟨hp, by omega, by omega, hj⟩, if_neg hs]

/-- Witness for mirror_fill_amended: the inverse-state lower_triangular matrix
mirrorInvMat has a symmetric dense copy at the pair (0, 1). -/
theorem mirror_fill_amended_witness :
    mirrorInvMat.n_rows = mirrorInvMat.n_columns ∧
      mirrorInvMat.property = MProperty.lower_triangular ∧
      mirrorInvMat.state = MState.inverse_matrix ∧
      copy_to_full mirrorInvMat 0 1 = copy_to_full mirrorInvMat 1 0 :=
  ⟨rfl, rfl, rfl, (mirror_fill_amended mirrorInvMat rfl rfl).1 rfl 0 1⟩

/-! ## Symmetric eigendecomposition

The psyev / psyevx kernels are external; eigenpairs_symmetric is embedded as
the control flow of source lines 730-911 around an abstract kernel.  A kernel
is a function from the argument tuple the source computes (jobz as a Bool,
range selector, Fortran index bounds il and iu, value bounds vl and vu) to the
outputs the source consumes: the count m of eigenvalues found, the eigenvalue
array, the content written into the scratch eigenvector matrix, the content
left behind in the input buffer, and the status code.  The two-call workspace
query returns the same results as the real call, so one kernel application
models both. -/

inductive RangeSel where
  | all
  | byValue
  | byIndex
deriving DecidableEq, Repr

structure EigArgs where
  want_vectors : Bool
  range : RangeSel
  il : Nat
  iu : Nat
  vl : Int
  vu : Int
deriving DecidableEq, Repr

structure EigOut where
  found : Nat
  ev : List Int
  vecs : Nat → Nat → Int
  destroyed : Nat → Nat → Int
  status : Int

/-- Argument tuple passed to the eigensolver kernel, source lines 762-816: an
index range selects range 'I' with il and iu the 1-based normalized bounds; a
value range (and no index range) selects range 'V' with vl and vu normalized
with min and max; otherwise range 'A' computes all eigenpairs.  Index and
value selectors are absent when a component carries the invalid-index or NaN
sentinel, modelled with Option. -/
def eig_args (idx : Option Nat × Option Nat) (limits : Option Int × Option Int)
    (cv : Bool) : EigArgs :=
  if idx.1.isSome && idx.2.isSome then
    { want_vectors := cv, range := RangeSel.byIndex,
      il := min (idx.1.getD 0) (idx.2.getD 0) + 1,
      iu := max (idx.1.getD 0) (idx.2.getD 0) + 1, vl := 0, vu := 0 }
  else if limits.1.isSome && limits.2.isSome then
    { want_vectors := cv, range := RangeSel.byValue, il := 1, iu := 1,
      vl := min (limits.1.getD 0) (limits.2.getD 0),
      vu := max (limits.1.getD 0) (limits.2.getD 0) }
  else
    { want_vectors := cv, range := RangeSel.all, il := 1, iu := 1,
      vl := 0, vu := 0 }

/-- ScaLAPACKMatrix::eigenpairs_symmetric, source lines 730-911: requires the
plain state and the symmetric property, rejects supplying both selectors,
invokes the kernel, throws on a non-zero status, truncates the eigenvalue
array to the number m of eigenvalues found, and finishes: with eigenvectors
requested the buffer is swapped with the scratch eigenvector matrix, property
becomes general and state becomes eigenvalues; without, the buffer holds what
the kernel left and state becomes unusable. -/
def eigenpairs_symmetric (kern : EigArgs → EigOut) (M : ScaMat)
    (idx : Option Nat × Option Nat) (limits : Option Int × Option Int)
    (cv : Bool) : Except String (List Int × ScaMat) :=
  if M.state = MState.matrix then
    if M.property = MProperty.symmetric then
      if (limits.1.isSome && limits.2.isSome) && (idx.1.isSome && idx.2.isSome) then
        Except.error "Prescribing both the index and value range for the eigenvalues is ambiguous"
      else
        if (kern (eig_args idx limits cv)).status = 0 then
          if cv then
            Except.ok ((kern (eig_args idx limits cv)).ev.take
                (kern (eig_args idx limits cv)).found,
              { M with
                data := (kern (eig_args idx limits cv)).vecs,
                property := MProperty.general,
                state := MState.eigenvalues })
          else
            Except.ok ((kern (eig_args idx limits cv)).ev.take
                (kern (eig_args idx limits cv)).found,
              { M with
                data := (kern (eig_args idx limits cv)).destroyed,
                state := MState.unusable })
        else Except.error "psyev"
    else Except.error "Matrix has to be symmetric for this operation."
  else Except.error "Matrix has to be in Matrix state before calling this function."

/-- ScaLAPACKMatrix::eigenpairs_symmetric_by_index, source lines 696-712:
range-checks both index limits, normalizes them with min and max, and either
computes all eigenpairs (when the normalized range covers 0 .. n_rows-1) or
passes the normalized index range on. -/
def eigenpairs_symmetric_by_index (kern : EigArgs → EigOut) (M : ScaMat)
    (index_limits : Nat × Nat) (cv : Bool) : Except String (List Int × ScaMat) :=
  if index_limits.1 < M.n_rows ∧ index_limits.2 < M.n_rows then
    if min index_limits.1 index_limits.2 = 0 ∧
       max index_limits.1 index_limits.2 = M.n_rows - 1 then
      eigenpairs_symmetric kern M (none, none) (none, none) cv
    else
      eigenpairs_symmetric kern M
        (some (min index_limits.1 index_limits.2),
         some (max index_limits.1 index_limits.2)) (none, none) cv
  else Except.error "ExcIndexRange"

/-- ScaLAPACKMatrix::eigenpairs_symmetric_by_value, source lines 716-726:
rejects NaN limits (modelled as the none case) and passes the value limits on;
the min/max normalization happens inside eigenpairs_symmetric. -/
def eigenpairs_symmetric_by_value (kern : EigArgs → EigOut) (M : ScaMat)
    (value_limits : Option Int × Option Int) (cv : Bool) :
    Except String (List Int × ScaMat) :=
  if value_limits.1.isSome then
    if value_limits.2.isSome then
      eigenpairs_symmetric kern M (none, none) value_limits cv
    else Except.error "value_limits.second is NaN"
  else Except.error "value_limits.first is NaN"

/-- C6: called in the plain state with the symmetric property and at most one
selector supplied, eigenpairs_symmetric succeeds whenever the kernel reports
status 0, and ends with state eigenvalues and the buffer holding the kernel's
eigenvector content (via the scratch-matrix swap) when eigenvectors were
requested, and with state unusable when they were not. -/
theorem eigenpairs_symmetric_final_state (kern : EigArgs → EigOut) (M : ScaMat)
    (idx : Option Nat × Option Nat) (limits : Option Int × Option Int) (cv : Bool)
    (hstate : M.state = MState.matrix)
    (hprop : M.property = MProperty.symmetric)
    (hsel : ((limits.1.isSome && limits.2.isSome) &&
             (idx.1.isSome && idx.2.isSome)) = false)
    (hkern : ∀ a, (kern a).status = 0) :
    ∃ ev M', eigenpairs_symmetric kern M idx limits cv = Except.ok (ev, M') ∧
      (cv = true → M'.state = MState.eigenvalues ∧
        ∃ a, M'.data = (kern a).vecs) ∧
      (cv = false → M'.state = MState.unusable) := by
  unfold eigenpairs_symmetric
  rw [if_pos hstate, if_pos hprop, if_neg (by rw [hsel]; exact Bool.false_ne_true),
    if_pos (hkern _)]
  cases cv with
  | true =>
    rw [if_pos rfl]
    exact ⟨_, _, rfl, fun _ => ⟨rfl, _, rfl⟩, fun h => Bool.noConfusion h⟩
  | false =>
    rw [if_neg Bool.false_ne_true]
    exact ⟨_, _, rfl, fun h => Bool.noConfusion h, fun _ => rfl⟩

/-- Symmetric 2 x 2 matrix in the plain state and a concrete kernel, for the
eigendecomposition witnesses. -/
def eigMat : ScaMat :=
  { n_rows := 2, n_columns := 2, row_block_size := 1, column_block_size := 1,
    grid := sampleGrid, data := fun _ _ => 1,
    state := MState.matrix, property := MProperty.symmetric }

def constKern : EigArgs → EigOut :=
  fun _ => { found := 2, ev := [1, 2], vecs := fun _ _ => 3,
             destroyed := fun _ _ => 4, status := 0 }

/-- Witness for eigenpairs_symmetric_final_state: eigMat with no selector and
eigenvectors requested. -/
theorem eigenpairs_symmetric_final_state_witness :
    eigMat.state = MState.matrix ∧ eigMat.property = MProperty.symmetric ∧
    ((((none : Option Int), (none : Option Int)).1.isSome &&
       ((none : Option Int), (none : Option Int)).2.isSome) &&
      (((none : Option Nat), (none : Option Nat)).1.isSome &&
       ((none : Option Nat), (none : Option Nat)).2.isSome)) = false ∧
    (∀ a, (constKern a).status = 0) ∧
    (∃ ev M', eigenpairs_symmetric constKern eigMat (none, none) (none, none) true =
        Except.ok (ev, M') ∧
      (true = true → M'.state = MState.eigenvalues ∧
        ∃ a, M'.data = (constKern a).vecs) ∧
      (true = false → M'.state = MState.unusable)) :=
  ⟨rfl, rfl, rfl, fun _ => rfl,
    eigenpairs_symmetric_final_state constKern eigMat (none, none) (none, none)
      true rfl rfl rfl (fun _ => rfl)⟩

/-- C10: eigenpairs_symmetric_by_index and eigenpairs_symmetric_by_value
accept their limits in either order: for in-range index limits and non-NaN
value limits, swapping the pair components yields the same result, because the
limits are normalized with min and max before reaching the kernel. -/
theorem eigenpairs_selector_order_irrelevant (kern : EigArgs → EigOut)
    (M : ScaMat) (a b : Nat) (v w : Int) (cv : Bool)
    (ha : a < M.n_rows) (hb : b < M.n_rows) :
    eigenpairs_symmetric_by_index kern M (a, b) cv =
      eigenpairs_symmetric_by_index kern M (b, a) cv ∧
    eigenpairs_symmetric_by_value kern M (some v, some w) cv =
      eigenpairs_symmetric_by_value kern M (some w, some v) cv := by
  constructor
  · unfold eigenpairs_symmetric_by_index
    dsimp only
    have h1 : a < M.n_rows ∧ b < M.n_rows := ⟨ha, hb⟩
    have h2 : b < M.n_rows ∧ a < M.n_rows := ⟨hb, ha⟩
    rw [if_pos h1, if_pos h2, Nat.min_comm b a, Nat.max_comm b a]
  · have hargs : eig_args (none, none) (some v, some w) cv =
        eig_args (none, none) (some w, some v) cv := by
      unfold eig_args
      dsimp only
      simp [min_comm v w, max_comm v w]
    show eigenpairs_symmetric kern M (none, none) (some v, some w) cv =
        eigenpairs_symmetric kern M (none, none) (some w, some v) cv
    unfold eigenpairs_symmetric
    rw [hargs]
    simp

/-- Witness for eigenpairs_selector_order_irrelevant on eigMat with index
limits 1 and 0 and value limits 7 and -1. -/
theorem eigenpairs_selector_order_irrelevant_witness :
    1 < eigMat.n_rows ∧ 0 < eigMat.n_rows ∧
    (eigenpairs_symmetric_by_index constKern eigMat (1, 0) true =
      eigenpairs_symmetric_by_index constKern eigMat (0, 1) true ∧
    eigenpairs_symmetric_by_value constKern eigMat (some 7, some (-1)) true =
      eigenpairs_symmetric_by_value constKern eigMat (some (-1), some 7) true) :=
  ⟨by decide, by decide,
    eigenpairs_selector_order_irrelevant constKern eigMat 1 0 7 (-1) true
      (by decide) (by decide)⟩

/-! ## Checkpoint save / load, serial HDF5 path

The HDF5 library is external; the file it produces is modelled by the three
records the source writes: the matrix dataset (whose two header dimensions are
deliberately the reverse of the logical shape, n_columns then n_rows, because
the storage is column-major and the file format row-major; the payload itself
is modelled as the function from a row and a column index to the stored
entry), and the two one-element enumeration datasets for state and
property. -/

structure HDF5File where
  dim0 : Nat
  dim1 : Nat
  payload : Nat → Nat → Int
  file_state : MState
  file_property : MProperty

/-- ScaLAPACKMatrix constructor, source lines 72-129: asserts positive block
sizes bounded by the matrix dimensions, allocates the (zero-initialised) local
buffers, and starts in the plain state. -/
def mkScaMat (nr nc : Nat) (g : ProcessGrid) (rbs cbs : Nat)
    (prop : MProperty) : Except String ScaMat :=
  if 0 < rbs ∧ 0 < cbs ∧ rbs ≤ nr ∧ cbs ≤ nc then
    Except.ok
      { n_rows := nr
        n_columns := nc
        row_block_size := rbs
        column_block_size := cbs
        grid := g
        data := fun _ _ => 0
        state := MState.matrix
        property := prop
        uplo_is_lower := true }
  else Except.error "block size out of range"

/-- ScaLAPACKMatrix::save_serial, source lines 1294-1416: gathers the matrix
into a temporary on a 1x1 grid with full blocks MB = n_rows, NB = n_columns
(the whole-matrix copy also transfers state and property to the temporary),
then the single active process writes the payload with reversed header
dimensions plus the state and property enumerations of the saved matrix. -/
def save_serial (M : ScaMat) : Except String HDF5File :=
  match mkScaMat M.n_rows M.n_columns
      { comm := M.grid.comm, n_process_rows := 1, n_process_columns := 1 }
      M.n_rows M.n_columns MProperty.general with
  | Except.error e => Except.error e
  | Except.ok tmp =>
    match copy_to_whole M tmp with
    | Except.error e => Except.error e
    | Except.ok tmp2 =>
      Except.ok
        { dim0 := M.n_columns
          dim1 := M.n_rows
          payload := tmp2.data
          file_state := M.state
          file_property := M.property }

/-- ScaLAPACKMatrix::save, source lines 1259-1290: defaults an unset chunk
shape (the invalid-index sentinel pair, modelled as none) to n_rows x 1,
asserts both chunk dimensions are in range, and dispatches (here: to the
serial path; the chunk shape affects only the on-disk chunking). -/
def save (M : ScaMat) (chunk_size : Option (Nat × Nat)) : Except String HDF5File :=
  let c := chunk_size.getD (M.n_rows, 1)
  if 0 < c.1 ∧ c.1 ≤ M.n_rows ∧ 0 < c.2 ∧ c.2 ≤ M.n_columns then
    save_serial M
  else Except.error "ExcIndexRange chunk"

/-- ScaLAPACKMatrix::load_serial, source lines 1616-1764: builds the same
1x1-grid temporary, checks the archive dimensions against the loading matrix
(first header dimension against n_columns, second against n_rows), reads the
payload, state and property into the temporary, broadcasts state and property
to every process, and copies the temporary onto the matrix (which transfers
content, state and property). -/
def load_serial (M : ScaMat) (f : HDF5File) : Except String ScaMat :=
  match mkScaMat M.n_rows M.n_columns
      { comm := M.grid.comm, n_process_rows := 1, n_process_columns := 1 }
      M.n_rows M.n_columns MProperty.general with
  | Except.error e => Except.error e
  | Except.ok tmp =>
    if f.dim0 = M.n_columns then
      if f.dim1 = M.n_rows then
        copy_to_whole
          { tmp with
            data := fun i j =>
              if i < tmp.n_rows ∧ j < tmp.n_columns then f.payload i j
              else tmp.data i j,
            state := f.file_state,
            property := f.file_property } M
      else Except.error "The number of rows of the matrix does not match the content of the archive"
    else Except.error "The number of columns of the matrix does not match the content of the archive"

/-- Value of save_serial on a matrix of positive dimensions. -/
theorem save_serial_eq (M : ScaMat) (hr : 0 < M.n_rows) (hc : 0 < M.n_columns) :
    save_serial M = Except.ok
      { dim0 := M.n_columns, dim1 := M.n_rows,
        payload := pgemr2d_whole M.n_rows M.n_columns M.data (fun _ _ => 0),
        file_state := M.state, file_property := M.property } := by
  unfold save_serial mkScaMat
  rw [if_pos ⟨hr, hc, le_refl _, le_refl _⟩]
  dsimp only
  unfold copy_to_whole
  dsimp only
  rw [if_pos rfl, if_pos rfl]

/-- Value of load_serial on a matching archive. -/
theorem load_serial_eq (N : ScaMat) (f : HDF5File)
    (hr : 0 < N.n_rows) (hc : 0 < N.n_columns)
    (h0 : f.dim0 = N.n_columns) (h1 : f.dim1 = N.n_rows) :
    load_serial N f = Except.ok { N with
      data := pgemr2d_whole N.n_rows N.n_columns
        (fun i j => if i < N.n_rows ∧ j < N.n_columns then f.payload i j else 0)
        N.data,
      state := f.file_state, property := f.file_property } := by
  unfold load_serial mkScaMat
  rw [if_pos ⟨hr, hc, le_refl _, le_refl _⟩]
  dsimp only
  rw [if_pos h0, if_pos h1]
  unfold copy_to_whole
  dsimp only
  rw [if_pos rfl, if_pos rfl]

/-- C1: save followed by load restores the matrix exactly: the load succeeds
on any matrix of the same global shape (regardless of either matrix's grid or
block sizes, covering 1x1 grids and grids smaller than the process count,
which only affect the distribution and not the global content), and the
resulting shape, every entry, the state and the property equal those of the
saved matrix. -/
theorem save_load_roundtrip (M N : ScaMat)
    (hr : 0 < M.n_rows) (hc : 0 < M.n_columns)
    (hNr : N.n_rows = M.n_rows) (hNc : N.n_columns = M.n_columns) :
    ∃ f N', save M none = Except.ok f ∧ load_serial N f = Except.ok N' ∧
      N'.n_rows = M.n_rows ∧ N'.n_columns = M.n_columns ∧
      N'.state = M.state ∧ N'.property = M.property ∧
      ∀ i j, i < M.n_rows → j < M.n_columns → N'.data i j = M.data i j := by
  have hsave : save M none = Except.ok
      { dim0 := M.n_columns, dim1 := M.n_rows,
        payload := pgemr2d_whole M.n_rows M.n_columns M.data (fun _ _ => 0),
        file_state := M.state, file_property := M.property } := by
    unfold save
    dsimp only [Option.getD]
    rw [if_pos ⟨hr, le_refl _, Nat.one_pos, hc⟩]
    exact save_serial_eq M hr hc
  have hload := load_serial_eq N
      { dim0 := M.n_columns, dim1 := M.n_rows,
        payload := pgemr2d_whole M.n_rows M.n_columns M.data (fun _ _ => 0),
        file_state := M.state, file_property := M.property }
      (by omega) (by omega) hNc.symm hNr.symm
  refine ⟨_, _, hsave, hload, hNr, hNc, rfl, rfl, ?_⟩
  intro i j hi hj
  have hi' : i < N.n_rows := by omega
  have hj' : j < N.n_columns := by omega
  show pgemr2d_whole N.n_rows N.n_columns
      (fun i j => if i < N.n_rows ∧ j < N.n_columns then
        pgemr2d_whole M.n_rows M.n_columns M.data (fun _ _ => 0) i j else 0)
      N.data i j = M.data i j
  simp [pgemr2d_whole, hi, hj, hi', hj']

/-- Witness for save_load_roundtrip: sampleA (a 2x2 matrix in the cholesky
state with the lower_triangular property on a 2x2 grid) saved and loaded into
sampleB (same shape, different block sizes, state and property). -/
theorem save_load_roundtrip_witness :
    0 < sampleA.n_rows ∧ 0 < sampleA.n_columns ∧
    sampleB.n_rows = sampleA.n_rows ∧ sampleB.n_columns = sampleA.n_columns ∧
    (∃ f N', save sampleA none = Except.ok f ∧
      load_serial sampleB f = Except.ok N' ∧
      N'.n_rows = sampleA.n_rows ∧ N'.n_columns = sampleA.n_columns ∧
      N'.state = sampleA.state ∧ N'.property = sampleA.property ∧
      ∀ i j, i < sampleA.n_rows → j < sampleA.n_columns →
        N'.data i j = sampleA.data i j) :=
  ⟨by decide, by decide, rfl, rfl,
    save_load_roundtrip sampleA sampleB (by decide) (by decide) rfl rfl⟩

end DealIIScaLAPACK
